import Mathlib

/-!
Shallow embedding of the HTML-to-Markdown converter of `fe_crawler.py`:
the marker resolver (`_marker_from_classes`, `_marker_from_type`,
`_default_marker`, `_get_list_marker`, `_circled_number`,
`_get_ordered_start`), the list renderer (`process_list`) and the
inline/block converter (`process_element`).

The element tree is BeautifulSoup's parsed markup: a node is a text leaf
(NavigableString) or a tag with a name, an attribute mapping, a class
token list (bs4 keeps `class` multi-valued, separate from the other
attributes) and ordered children.  The image-download collaborator and
URL resolution are external boundaries and enter as function parameters.
-/

/-- A node of the parsed markup tree. -/
inductive Node where
  | text (s : String)
  | elem (tag : String) (attrs : List (String × String)) (classes : List String)
      (children : List Node)

namespace Node

/-- Tag name of a node; `none` for a text leaf (bs4 `.name is None`). -/
def name? : Node → Option String
  | .text _ => none
  | .elem t _ _ _ => some t

/-- Direct children of a node. -/
def children : Node → List Node
  | .text _ => []
  | .elem _ _ _ cs => cs

/-- The node's class token list, bs4 `get('class', [])`. -/
def classes : Node → List String
  | .text _ => []
  | .elem _ _ c _ => c

/-- Attribute lookup, bs4 `get(key)`: `none` when absent. -/
def getAttr (n : Node) (k : String) : Option String :=
  match n with
  | .text _ => none
  | .elem _ attrs _ _ => attrs.lookup k

end Node

/-- Python `str.strip()`: drop leading and trailing whitespace. -/
def pyStrip (s : String) : String :=
  ⟨((s.toList.dropWhile Char.isWhitespace).reverse.dropWhile Char.isWhitespace).reverse⟩

/-- Python `str.rstrip()`: drop trailing whitespace. -/
def rstrip (s : String) : String :=
  ⟨(s.toList.reverse.dropWhile Char.isWhitespace).reverse⟩

/-- One pass of `re.sub(r"[ \t]+\n", "\n", _)` over the character list:
a space or tab is deleted exactly when only spaces and tabs stand between
it and the next newline. -/
def subWsNl : List Char → List Char
  | [] => []
  | c :: cs =>
    let rest := subWsNl cs
    if (c = ' ' ∨ c = '\t') ∧ rest.head? = some '\n' then rest else c :: rest

/-- The regex normalisation `re.sub(r"[ \t]+\n", "\n", s)`. -/
def stripWsBeforeNl (s : String) : String := ⟨subWsNl s.toList⟩

/-- Python `s[0].isspace()` (false on the empty string, which the source
guards against). -/
def headIsWs (s : String) : Bool :=
  match s.toList with
  | [] => false
  | c :: _ => c.isWhitespace

/-- Python `s[-1].isspace()`. -/
def lastIsWs (s : String) : Bool :=
  match s.toList.getLast? with
  | none => false
  | some c => c.isWhitespace

/-- Python `s.endswith((" ", "\n"))`. -/
def endsWithSpaceOrNl (s : String) : Bool :=
  match s.toList.getLast? with
  | some ' ' => true
  | some '\n' => true
  | _ => false

/-- Python `sep.join(xs)`. -/
def joinSep (sep : String) : List String → String
  | [] => ""
  | [x] => x
  | x :: xs => x ++ sep ++ joinSep sep xs

/-- Python `str.lower()` character by character. -/
def pyLower (s : String) : String := ⟨s.toList.map Char.toLower⟩

/-- The indentation `"　" * indent_level` (full-width space). -/
def indentOf (n : Nat) : String := ⟨List.replicate n '　'⟩

/-- Decimal value of a digit list. -/
def digitsVal (ds : List Char) : Nat :=
  ds.foldl (fun a c => a * 10 + (c.toNat - 48)) 0

/-- Python `int()` digit run after the sign: digits with single
underscores allowed between digits. -/
def pyDigitsGo (acc : Nat) : List Char → Option Nat
  | [] => some acc
  | '_' :: c :: cs => if c.isDigit then pyDigitsGo (acc * 10 + (c.toNat - 48)) cs else none
  | c :: cs => if c.isDigit then pyDigitsGo (acc * 10 + (c.toNat - 48)) cs else none

/-- Python `int()` digit part: nonempty, must start with a digit. -/
def pyDigits : List Char → Option Nat
  | [] => none
  | c :: cs => if c.isDigit then pyDigitsGo (c.toNat - 48) cs else none

/-- Python `int(s)` on a string: surrounding whitespace stripped, optional
sign, decimal digits; `none` models the `ValueError` the source catches. -/
def pyInt? (s : String) : Option Int :=
  match (pyStrip s).toList with
  | '+' :: rest => (pyDigits rest).map Int.ofNat
  | '-' :: rest => (pyDigits rest).map (fun n => -(n : Int))
  | rest => (pyDigits rest).map Int.ofNat

/-- Full match of `li(\d+)$` from the string start: the trailing integer of
an indexed class token. -/
def liClassNum? (cls : String) : Option Nat :=
  match cls.toList with
  | 'l' :: 'i' :: rest =>
    if rest ≠ [] ∧ rest.all Char.isDigit then some (digitsVal rest) else none
  | _ => none

/-- Full match of `maru(\d+)$` from the string start: the trailing integer
of a circled-number class token. -/
def maruClassNum? (cls : String) : Option Nat :=
  match cls.toList with
  | 'm' :: 'a' :: 'r' :: 'u' :: rest =>
    if rest ≠ [] ∧ rest.all Char.isDigit then some (digitsVal rest) else none
  | _ => none

/-- The `_CIRCLED_NUMBERS` table, keys 1 to 20. -/
def CIRCLED_NUMBERS : List (Nat × String) :=
  [(1, "①"), (2, "②"), (3, "③"), (4, "④"), (5, "⑤"),
   (6, "⑥"), (7, "⑦"), (8, "⑧"), (9, "⑨"), (10, "⑩"),
   (11, "⑪"), (12, "⑫"), (13, "⑬"), (14, "⑭"), (15, "⑮"),
   (16, "⑯"), (17, "⑰"), (18, "⑱"), (19, "⑲"), (20, "⑳")]

/-- `_circled_number`: `_CIRCLED_NUMBERS.get(value, f"({value})")`. -/
def circledNumber (n : Nat) : String :=
  (CIRCLED_NUMBERS.lookup n).getD ("(" ++ Nat.repr n ++ ")")

/-- The loop body of `_marker_from_classes`: remember the last indexed
(`li<n>`) and the last circled-number (`maru<n>`) match seen so far. -/
def classScanStep (p : Option Nat × Option Nat) (cls : String) : Option Nat × Option Nat :=
  match liClassNum? cls with
  | some n => (some n, p.2)
  | none =>
    match maruClassNum? cls with
    | some m => (p.1, some m)
    | none => p

/-- `_marker_from_classes`: scan the item's class tokens; a circled-number
match wins, then an indexed match, else no class-derived marker.  The
source's truthiness test on the result coincides with `Option.isSome`
because no produced marker is the empty string. -/
def markerFromClasses (li : Node) : Option String :=
  let p := li.classes.foldl classScanStep (none, none)
  match p.2 with
  | some m => some (circledNumber m)
  | none =>
    match p.1 with
    | some n => some ("(" ++ Nat.repr n ++ ")")
    | none => none

/-- `_marker_from_type`: letter markers for an ordered list whose `type`
attribute is `a` case-insensitively and an ordinal in 1..26. -/
def markerFromType (listEl : Node) (number : Int) (typeAttr : String) : Option String :=
  if listEl.name? ≠ some "ol" ∨ typeAttr = "" then none
  else if pyLower typeAttr = "a" ∧ 1 ≤ number ∧ number ≤ 26 then
    let startChar : Char := if typeAttr = "A" then 'A' else 'a'
    some (⟨[Char.ofNat (startChar.toNat + (number - 1).toNat)]⟩ ++ ".")
  else none

/-- `_default_marker`: `"<number>."` for an ordered list, `"-"` otherwise. -/
def defaultMarker (listEl : Node) (number : Int) : String :=
  if listEl.name? = some "ol" then Int.repr number ++ "." else "-"

/-- `_get_list_marker`: class-derived marker first, then the type-attribute
rule, then the default. -/
def getListMarker (listEl li : Node) (number : Int) : String :=
  let typeAttr := pyStrip ((listEl.getAttr "type").getD "")
  match markerFromClasses li with
  | some m => m
  | none =>
    match markerFromType listEl number typeAttr with
    | some m => m
    | none => defaultMarker listEl number

/-- `_get_ordered_start`: 1 for a non-`ol` element; else the `start`
attribute parsed as an integer, 1 when absent or malformed. -/
def getOrderedStart (l : Node) : Int :=
  if l.name? ≠ some "ol" then 1
  else
    match l.getAttr "start" with
    | none => 1
    | some s =>
      match pyInt? s with
      | some n => n
      | none => 1

mutual

/-- bs4 `get_text()`: concatenation of all descendant strings. -/
def getText : Node → String
  | .text s => s
  | .elem _ _ _ cs => getTexts cs

def getTexts : List Node → String
  | [] => ""
  | c :: cs => getText c ++ getTexts cs

end

/-- The inner scan of a `u` element shared by `process_list` and
`process_element`: a text child contributes its string, a tag child its
flattened `get_text()`. -/
def uContentList : List Node → String
  | [] => ""
  | .text s :: rest => s ++ uContentList rest
  | e :: rest => getText e ++ uContentList rest

mutual

/-- `process_list(list_element, ..., indent_level)`: renders the direct
`li` children joined with blank lines.  The download arguments of the
source are pass-through only and do not reach any output, so they are
dropped here. -/
def processList : Node → Nat → String
  | .text _, _ => ""
  | .elem t a k cs, indentLevel =>
    joinSep "\n\n"
      (processItems (.elem t a k cs) indentLevel (getOrderedStart (.elem t a k cs)) cs)

/-- The loop `for li in list_element.find_all('li', recursive=False)`,
threading the running ordinal `current`. -/
def processItems (l : Node) (indentLevel : Nat) (current : Int) : List Node → List String
  | [] => []
  | .text _ :: rest => processItems l indentLevel current rest
  | .elem t a k liCs :: rest =>
    if t = "li" then
      let value? : Option Int := (a.lookup "value").bind pyInt?
      let liText := rstrip (stripWsBeforeNl (itemText indentLevel "" liCs))
      let number := value?.getD current
      let marker := getListMarker l (.elem t a k liCs) number
      let line := indentOf indentLevel ++ marker ++ " " ++ liText
      let current' := if l.name? = some "ol" then number + 1 else current
      line :: processItems l indentLevel current' rest
    else
      processItems l indentLevel current rest

/-- The scan of one item's direct children (`for child in li.children`),
accumulating `li_text`. -/
def itemText (indentLevel : Nat) (acc : String) : List Node → String
  | [] => acc
  | .text s :: rest =>
    let acc' :=
      if s ≠ "" then
        let stripped := pyStrip s
        if stripped ≠ "" then
          let pre := if headIsWs s ∧ acc ≠ "" ∧ ¬ endsWithSpaceOrNl acc then " " else ""
          let suf := if lastIsWs s then " " else ""
          acc ++ pre ++ stripped ++ suf
        else acc
      else acc
    itemText indentLevel acc' rest
  | .elem t a k ecs :: rest =>
    let acc' :=
      if t = "span" ∧ "bb" ∈ k then
        acc ++ "<u>&emsp;" ++ pyStrip (getText (.elem t a k ecs)) ++ "&emsp;</u>"
      else if t = "ul" ∨ t = "ol" then
        acc ++ "\n\n" ++ processList (.elem t a k ecs) (indentLevel + 1)
      else if t = "u" then
        acc ++ "<u>" ++ uContentList ecs ++ "</u>"
      else
        let txt := pyStrip (getText (.elem t a k ecs))
        if txt ≠ "" then acc ++ txt else acc
    itemText indentLevel acc' rest

end

/-- The tags `process_element` classifies as block-level. -/
def blockTags : List String :=
  ["p", "div", "ul", "ol", "blockquote", "h1", "h2", "h3", "h4", "h5", "h6", "img"]

/-- The centered image block emitted on a successful download. -/
def imgBlock (localPath : String) : String :=
  "<div style=\"text-align: center;\">\n  <img src=\"" ++ localPath ++
    "\" style=\"max-width: 100%; background-color: white;\">\n</div>\n\n"

mutual

/-- `process_element(element, base_url, ...)`: lists delegate to
`process_list` plus a trailing blank line; images resolve `src` against
the base URL (`uj`) and call the download collaborator (`dl`, `none`
models the source's `None` failure result); any other element scans its
children and appends a trailing blank line. -/
def processElement (uj : String → String → String) (dl : String → Option String)
    (baseUrl : String) : Node → String
  | .text _ => ""
  | .elem t a k cs =>
    if t = "ul" ∨ t = "ol" then
      processList (.elem t a k cs) 0 ++ "\n\n"
    else if t = "img" then
      match a.lookup "src" with
      | none => ""
      | some src =>
        if src = "" then ""
        else
          match dl (uj baseUrl src) with
          | none => ""
          | some localPath => if localPath = "" then "" else imgBlock localPath
    else
      peChildren uj dl baseUrl "" cs ++ "\n\n"

/-- The child scan of `process_element`, accumulating `md_text`: blank
spans, line breaks, raw text, underline spans, and recursion into any
other tag, wrapped in blank lines when its tag is block-level. -/
def peChildren (uj : String → String → String) (dl : String → Option String)
    (baseUrl : String) (acc : String) : List Node → String
  | [] => acc
  | .text s :: rest => peChildren uj dl baseUrl (acc ++ s) rest
  | .elem t a k ecs :: rest =>
    let acc' :=
      if t = "span" ∧ "bb" ∈ k then
        acc ++ "<u>&emsp;" ++ pyStrip (getText (.elem t a k ecs)) ++ "&emsp;</u>"
      else if t = "br" then
        acc ++ "\n\n"
      else if t = "u" then
        acc ++ "<u>" ++ uContentList ecs ++ "</u>"
      else
        let childText := processElement uj dl baseUrl (.elem t a k ecs)
        if t ∈ blockTags then
          acc ++ "\n\n" ++ pyStrip childText ++ "\n\n"
        else
          acc ++ pyStrip childText
    peChildren uj dl baseUrl acc' rest

end

/-! ## General lemmas about the embedding -/

theorem strAppend_assoc (a b c : String) : a ++ b ++ c = a ++ (b ++ c) :=
  String.ext (by simp [String.data_append])

theorem imgBlock_split (p : String) : imgBlock p =
    ("<div style=\"text-align: center;\">\n  <img src=\"" ++ p ++
      "\" style=\"max-width: 100%; background-color: white;\">\n</div>") ++ "\n\n" :=
  String.ext (by simp only [imgBlock, String.data_append, List.append_assoc]; rfl)

theorem processElement_list_eq (uj : String → String → String) (dl : String → Option String)
    (baseUrl t : String) (a : List (String × String)) (k : List String) (cs : List Node)
    (h : t = "ul" ∨ t = "ol") :
    processElement uj dl baseUrl (.elem t a k cs)
      = processList (.elem t a k cs) 0 ++ "\n\n" := by
  simp only [processElement, if_pos h]

theorem processElement_img_eq (uj : String → String → String) (dl : String → Option String)
    (baseUrl : String) (a : List (String × String)) (k : List String) (cs : List Node) :
    processElement uj dl baseUrl (.elem "img" a k cs)
      = (match a.lookup "src" with
         | none => ""
         | some src =>
           if src = "" then ""
           else
             match dl (uj baseUrl src) with
             | none => ""
             | some localPath => if localPath = "" then "" else imgBlock localPath) := by
  simp only [processElement]
  rw [if_neg (by decide)]
  simp

theorem processElement_generic_eq (uj : String → String → String) (dl : String → Option String)
    (baseUrl t : String) (a : List (String × String)) (k : List String) (cs : List Node)
    (h1 : ¬(t = "ul" ∨ t = "ol")) (h2 : t ≠ "img") :
    processElement uj dl baseUrl (.elem t a k cs)
      = peChildren uj dl baseUrl "" cs ++ "\n\n" := by
  simp only [processElement, if_neg h1, if_neg h2]

theorem processItems_skip_no_li (l : Node) (ind : Nat) (cur : Int) :
    ∀ cs : List Node, (∀ c ∈ cs, c.name? ≠ some "li") → processItems l ind cur cs = [] := by
  intro cs
  induction cs with
  | nil => intro _; simp [processItems]
  | cons c rest ih =>
    intro h
    cases c with
    | text s =>
      simp only [processItems]
      exact ih fun c hc => h c (List.mem_cons_of_mem _ hc)
    | elem t a k ecs =>
      have ht : t ≠ "li" := by
        intro he
        exact (h _ (List.mem_cons_self _ _)) (by simp [Node.name?, he])
      simp only [processItems, if_neg ht]
      exact ih fun c hc => h c (List.mem_cons_of_mem _ hc)

/-! ## The claims -/

/-- C1: the claim says an item carrying one of the ten kana class tokens
(such as `lia`) gets the marker `ア、` with highest priority.  The marker
resolver of the code has no kana rule at all: `_marker_from_classes`
matches only `li<digits>` and `maru<digits>`, so a `lia` item falls
through to the default unordered marker `-` (the repository's own test
expects `ア、 Option A` here and fails). -/
theorem kana_class_gets_default_marker :
    markerFromClasses (.elem "li" [] ["lia"] [.text "Option A"]) = none
    ∧ getListMarker (.elem "ul" [] [] []) (.elem "li" [] ["lia"] [.text "Option A"]) 1 = "-"
    ∧ processList (.elem "ul" [] [] [.elem "li" [] ["lia"] [.text "Option A"]]) 0
        = "- Option A"
    ∧ processList (.elem "ul" [] [] [.elem "li" [] ["lia"] [.text "Option A"]]) 0
        ≠ "ア、 Option A" :=
  ⟨by decide, by decide, by decide, by decide⟩

/-- C3 counterexample: on an `img` element with no `src` attribute,
`process_element` returns the empty string, which is not any string with
a trailing blank line appended. -/
theorem processElement_img_empty_no_trailing_blank :
    processElement (fun _ s => s) (fun _ => none) "" (.elem "img" [] [] []) = ""
    ∧ ¬ ∃ y : String,
        processElement (fun _ s => s) (fun _ => none) "" (.elem "img" [] [] [])
          = y ++ "\n\n" := by
  refine ⟨by decide, ?_⟩
  rintro ⟨y, hy⟩
  have h0 : processElement (fun _ s => s) (fun _ => none) "" (.elem "img" [] [] []) = "" := by
    decide
  rw [h0] at hy
  have h2 : ("" : String).length = (y ++ "\n\n").length := congrArg String.length hy
  rw [String.length_append] at h2
  have hz : ("" : String).length = 0 := rfl
  have hn : ("\n\n" : String).length = 2 := rfl
  omega

/-- C3 amended: every invocation of `process_element` returns either a
string with a trailing blank line appended to its own output, or the
empty string (the image branches whose output is empty return it without
the trailing blank line). -/
theorem processElement_trailing_blank_or_empty (uj : String → String → String)
    (dl : String → Option String) (baseUrl : String) (e : Node) :
    processElement uj dl baseUrl e = ""
    ∨ ∃ y, processElement uj dl baseUrl e = y ++ "\n\n" := by
  cases e with
  | text s => exact Or.inl rfl
  | elem t a k cs =>
    by_cases h1 : t = "ul" ∨ t = "ol"
    · exact Or.inr ⟨_, processElement_list_eq uj dl baseUrl t a k cs h1⟩
    · by_cases h2 : t = "img"
      · subst h2
        rw [processElement_img_eq]
        cases hsrc : a.lookup "src" with
        | none => exact Or.inl rfl
        | some src =>
          by_cases h3 : src = ""
          · exact Or.inl (by simp [h3])
          · cases hdl : dl (uj baseUrl src) with
            | none => exact Or.inl (by simp [h3, hdl])
            | some p =>
              by_cases h4 : p = ""
              · exact Or.inl (by simp [h3, hdl, h4])
              · refine Or.inr ⟨"<div style=\"text-align: center;\">\n  <img src=\"" ++ p ++
                  "\" style=\"max-width: 100%; background-color: white;\">\n</div>", ?_⟩
                simp only [hdl, if_neg h3, if_neg h4]
                exact imgBlock_split p
      · exact Or.inr ⟨_, processElement_generic_eq uj dl baseUrl t a k cs h1 h2⟩

/-- C8: an image whose `src` attribute is absent, or whose download
collaborator reports failure, contributes the empty string; a successful
download yields the centered HTML image block referencing the returned
local path. -/
theorem img_unresolved_empty_output (uj : String → String → String)
    (dl : String → Option String) (baseUrl : String)
    (a : List (String × String)) (k : List String) (cs : List Node) :
    (a.lookup "src" = none → processElement uj dl baseUrl (.elem "img" a k cs) = "")
    ∧ (∀ src, a.lookup "src" = some src → src ≠ "" → dl (uj baseUrl src) = none →
        processElement uj dl baseUrl (.elem "img" a k cs) = "")
    ∧ (∀ src p, a.lookup "src" = some src → src ≠ "" → dl (uj baseUrl src) = some p →
        p ≠ "" → processElement uj dl baseUrl (.elem "img" a k cs) = imgBlock p) := by
  refine ⟨?_, ?_, ?_⟩
  · intro hsrc
    rw [processElement_img_eq, hsrc]
  · intro src hsrc hne hdl
    rw [processElement_img_eq, hsrc]
    simp [hne, hdl]
  · intro src p hsrc hne hdl hpne
    rw [processElement_img_eq, hsrc]
    simp [hne, hdl, hpne]

/-- C8 witness: concrete instances of all three branches. -/
theorem img_unresolved_empty_output_witness :
    processElement (fun b s => b ++ s) (fun _ => none) "u/"
      (.elem "img" [("src", "i.png")] [] []) = "" :=
  (img_unresolved_empty_output (fun b s => b ++ s) (fun _ => none) "u/"
      [("src", "i.png")] [] []).2.1 "i.png" (by decide) (by decide) (by decide)

/-- C9: a list element with no direct `li` children renders as the empty
string at every nesting depth. -/
theorem processList_no_li_empty (l : Node) (ind : Nat)
    (h : ∀ c ∈ l.children, c.name? ≠ some "li") : processList l ind = "" := by
  cases l with
  | text s => simp [processList]
  | elem t a k cs =>
    simp only [processList]
    rw [processItems_skip_no_li _ _ _ cs (by simpa [Node.children] using h)]
    rfl

/-- C9 witness: an `ul` whose children are a text node and a non-`li`
element (itself containing an `li` grandchild, which must not count). -/
theorem processList_no_li_empty_witness :
    processList (.elem "ul" [] [] [.text "x", .elem "p" [] [] [.elem "li" [] [] []]]) 3 = "" :=
  processList_no_li_empty _ 3 (by decide)

/-- C2: in the generic child scan of `process_element`, a child that falls
to the recursive rule contributes its trimmed fragment wrapped in exactly
one blank line (two newlines) on each side when its tag is in the
block-tag list, and the bare trimmed fragment with no surrounding blank
lines otherwise; the classification reads only the child's tag name. -/
theorem peChildren_block_wrap_inline_plain (uj : String → String → String)
    (dl : String → Option String) (baseUrl acc t : String)
    (a : List (String × String)) (k : List String) (ecs rest : List Node)
    (hspan : t = "span" → "bb" ∉ k) (hbr : t ≠ "br") (hu : t ≠ "u") :
    peChildren uj dl baseUrl acc (.elem t a k ecs :: rest)
      = peChildren uj dl baseUrl
          (if t ∈ blockTags
           then acc ++ "\n\n" ++ pyStrip (processElement uj dl baseUrl (.elem t a k ecs)) ++ "\n\n"
           else acc ++ pyStrip (processElement uj dl baseUrl (.elem t a k ecs))) rest := by
  have h1 : ¬(t = "span" ∧ "bb" ∈ k) := fun h => hspan h.1 h.2
  simp only [peChildren, if_neg h1, if_neg hbr, if_neg hu]

/-- C2 witness: a block child (`p`) wraps its trimmed fragment in one
blank line each side. -/
theorem peChildren_block_wrap_witness :
    peChildren (fun _ s => s) (fun _ => none) "" "" [.elem "p" [] [] [.text "x"]]
      = "\n\nx\n\n" :=
  (peChildren_block_wrap_inline_plain (fun _ s => s) (fun _ => none) "" "" "p"
    [] [] [.text "x"] [] (by decide) (by decide) (by decide)).trans (by decide)

/-- C4: ordered-list numbering: the renderer seeds the running counter
with the list's parsed `start` attribute (default 1); each item's
effective ordinal is its parsed `value` override when present, else the
running counter, and the counter then becomes effective ordinal plus one;
concretely `start="5"` with a `value="2"` override renders `5.`, `2.`,
`3.`. -/
theorem processList_ordinal_counter
    (a : List (String × String)) (k : List String) (cs : List Node) (ind : Nat)
    (l : Node) (cur : Int) (la : List (String × String)) (lk : List String)
    (liCs rest : List Node) :
    (processList (.elem "ol" a k cs) ind
      = joinSep "\n\n" (processItems (.elem "ol" a k cs) ind
          (getOrderedStart (.elem "ol" a k cs)) cs))
    ∧ (∀ s n, a.lookup "start" = some s → pyInt? s = some n →
        getOrderedStart (.elem "ol" a k cs) = n)
    ∧ (a.lookup "start" = none → getOrderedStart (.elem "ol" a k cs) = 1)
    ∧ (l.name? = some "ol" →
        processItems l ind cur (.elem "li" la lk liCs :: rest)
          = (indentOf ind
              ++ getListMarker l (.elem "li" la lk liCs)
                  (((la.lookup "value").bind pyInt?).getD cur)
              ++ " " ++ rstrip (stripWsBeforeNl (itemText ind "" liCs)))
            :: processItems l ind ((((la.lookup "value").bind pyInt?).getD cur) + 1) rest)
    ∧ processList (.elem "ol" [("start", "5")] []
        [.elem "li" [] [] [.text "A"], .elem "li" [("value", "2")] [] [.text "B"],
         .elem "li" [] [] [.text "C"]]) 0 = "5. A\n\n2. B\n\n3. C" := by
  refine ⟨?_, ?_, ?_, ?_, by decide⟩
  · simp only [processList]
  · intro s n hs hn
    simp only [getOrderedStart, Node.name?, Node.getAttr, hs, hn]
    simp
  · intro hs
    simp only [getOrderedStart, Node.name?, Node.getAttr, hs]
    simp
  · intro h
    simp only [processItems, if_pos rfl, Node.getAttr, h]
    simp

/-- C4 witness: the parsed `start` attribute seeds the counter. -/
theorem processList_ordinal_counter_witness :
    getOrderedStart (.elem "ol" [("start", "7")] [] []) = 7 :=
  (processList_ordinal_counter [("start", "7")] [] [] 0 (.elem "ol" [] [] []) 1
    [] [] [] []).2.1 "7" 7 (by decide) (by decide)

/-- C7: a malformed `start` attribute on an ordered list falls back to 1
exactly as an absent one does, and a malformed `value` attribute on an
item renders exactly as an absent one (same marker, same counter
advance); the embedding is total, mirroring the source's `try/except`
that turns the parse failures into defaults instead of errors. -/
theorem malformed_numeric_attrs_default
    (a : List (String × String)) (k : List String) (cs : List Node) (s : String)
    (l : Node) (ind : Nat) (cur : Int) (la : List (String × String)) (lk : List String)
    (liCs rest : List Node) :
    (pyInt? s = none → getOrderedStart (.elem "ol" (("start", s) :: a) k cs) = 1)
    ∧ (a.lookup "start" = none → getOrderedStart (.elem "ol" a k cs) = 1)
    ∧ (pyInt? s = none → la.lookup "value" = none →
        processItems l ind cur (.elem "li" (("value", s) :: la) lk liCs :: rest)
          = processItems l ind cur (.elem "li" la lk liCs :: rest)) := by
  refine ⟨?_, ?_, ?_⟩
  · intro hs
    simp only [getOrderedStart, Node.name?, Node.getAttr, List.lookup]
    simp [hs]
  · intro hs
    simp only [getOrderedStart, Node.name?, Node.getAttr, hs]
    simp
  · intro hs hla
    simp only [processItems, if_pos rfl, List.lookup, hla]
    simp [getListMarker, markerFromClasses, Node.classes, hs]

/-- C7 witness: the malformed start attribute `"abc"` defaults to 1. -/
theorem malformed_numeric_attrs_default_witness :
    getOrderedStart (.elem "ol" [("start", "abc")] [] []) = 1 :=
  (malformed_numeric_attrs_default [] [] [] "abc" (.elem "ol" [] [] []) 0 1
    [] [] [] []).1 (by decide)

theorem getLast?_cons_or {α : Type} (x : α) : ∀ l : List α, (x :: l).getLast? = l.getLast?.or (some x)
  | [] => by simp
  | y :: l => by
    rw [List.getLast?_cons_cons, getLast?_cons_or y l, Option.or_assoc]
    rfl

theorem maru_none_of_li {c : String} {n : Nat} (h : liClassNum? c = some n) :
    maruClassNum? c = none := by
  simp only [liClassNum?] at h
  split at h
  · rename_i rest heq
    simp only [maruClassNum?, heq]
    split
    · rename_i drest heq2
      exact absurd heq2 (by simp)
    · rfl
  · exact absurd h (by simp)

theorem foldl_classScanStep : ∀ (cls : List String) (p : Option Nat × Option Nat),
    cls.foldl classScanStep p
      = ((cls.filterMap liClassNum?).getLast?.or p.1,
         (cls.filterMap maruClassNum?).getLast?.or p.2)
  | [], p => by simp
  | c :: cls, p => by
    simp only [List.foldl_cons]
    rw [foldl_classScanStep cls (classScanStep p c)]
    cases hli : liClassNum? c with
    | some n =>
      have hm := maru_none_of_li hli
      simp only [classScanStep, hli, List.filterMap_cons, hm]
      rw [getLast?_cons_or, Option.or_assoc]
      rfl
    | none =>
      cases hmaru : maruClassNum? c with
      | some m =>
        simp only [classScanStep, hli, hmaru, List.filterMap_cons]
        rw [getLast?_cons_or, Option.or_assoc]
        rfl
      | none =>
        simp only [classScanStep, hli, hmaru, List.filterMap_cons]

theorem markerFromClasses_spec (t : String) (a : List (String × String))
    (k : List String) (cs : List Node) :
    markerFromClasses (.elem t a k cs)
      = match (k.filterMap maruClassNum?).getLast? with
        | some m => some (circledNumber m)
        | none =>
          (k.filterMap liClassNum?).getLast?.map (fun n => "(" ++ Nat.repr n ++ ")") := by
  simp only [markerFromClasses, Node.classes]
  rw [foldl_classScanStep]
  cases (k.filterMap maruClassNum?).getLast? <;>
    cases (k.filterMap liClassNum?).getLast? <;> simp [Option.or]

/-- C10: the marker numbers come from the last matching token of each
pattern in class-attribute order, and any circled-number (`maru`) token
takes precedence over any indexed (`li`) token regardless of position;
in particular classes `li2 li5` give `(5)`, and `maru2` beats `li7` from
either side. -/
theorem markerFromClasses_last_match_maru_wins (t : String)
    (a : List (String × String)) (k : List String) (cs : List Node) :
    (markerFromClasses (.elem t a k cs)
      = match (k.filterMap maruClassNum?).getLast? with
        | some m => some (circledNumber m)
        | none =>
          (k.filterMap liClassNum?).getLast?.map (fun n => "(" ++ Nat.repr n ++ ")"))
    ∧ markerFromClasses (.elem "li" [] ["li2", "li5"] []) = some "(5)"
    ∧ getListMarker (.elem "ul" [] [] []) (.elem "li" [] ["li2", "li5"] []) 1 = "(5)"
    ∧ markerFromClasses (.elem "li" [] ["li7", "maru2"] []) = some "②"
    ∧ markerFromClasses (.elem "li" [] ["maru2", "li7"] []) = some "②"
    ∧ markerFromClasses (.elem "li" [] ["maru3", "maru2"] []) = some "②" :=
  ⟨markerFromClasses_spec t a k cs, by decide, by decide, by decide, by decide, by decide⟩

theorem circled_lookup_gt {n : Nat} (hn : 20 < n) : CIRCLED_NUMBERS.lookup n = none := by
  have key : ∀ l : List (Nat × String), (∀ p ∈ l, p.1 ≤ 20) → List.lookup n l = none := by
    intro l hl
    induction l with
    | nil => rfl
    | cons q es ih =>
      obtain ⟨qk, qv⟩ := q
      have h1 : qk ≤ 20 := hl (qk, qv) (List.mem_cons_self _ _)
      have hne : (n == qk) = false := beq_eq_false_iff_ne.mpr (by omega)
      simp only [List.lookup, hne]
      exact ih fun r hr => hl r (List.mem_cons_of_mem _ hr)
  exact key CIRCLED_NUMBERS (by decide)

/-- C5: an item whose class token is `maru` followed by digits gets the
circled-number marker with class-rule priority over every other rule; for
values 1 to 20 the marker is the circled glyph ① to ⑳ and for any other
value the parenthesised fallback `(<n>)`; concretely `maru1` gives `①`
and `maru21` gives `(21)`. -/
theorem maru_class_circled_marker (listEl : Node) (a : List (String × String))
    (cs : List Node) (num : Int) (ds : List Char)
    (hne : ds ≠ []) (hdig : ds.all Char.isDigit = true) :
    (getListMarker listEl (.elem "li" a [⟨'m' :: 'a' :: 'r' :: 'u' :: ds⟩] cs) num
        = circledNumber (digitsVal ds))
    ∧ (∀ n : Nat, 1 ≤ n → n ≤ 20 →
        circledNumber n
          = ["①", "②", "③", "④", "⑤", "⑥", "⑦", "⑧", "⑨", "⑩", "⑪", "⑫",
             "⑬", "⑭", "⑮", "⑯", "⑰", "⑱", "⑲", "⑳"].getD (n - 1) "")
    ∧ (∀ n : Nat, 20 < n → circledNumber n = "(" ++ Nat.repr n ++ ")")
    ∧ circledNumber 0 = "(0)"
    ∧ getListMarker (.elem "ul" [] [] []) (.elem "li" [] ["maru1"] []) 5 = "①"
    ∧ getListMarker (.elem "ol" [("type", "a"), ("start", "9")] [] [])
        (.elem "li" [] ["maru21"] []) 5 = "(21)" := by
  refine ⟨?_, ?_, ?_, by decide, by decide, by decide⟩
  · have hm : maruClassNum? ⟨'m' :: 'a' :: 'r' :: 'u' :: ds⟩
        = if ds ≠ [] ∧ ds.all Char.isDigit then some (digitsVal ds) else none := rfl
    have hli : liClassNum? ⟨'m' :: 'a' :: 'r' :: 'u' :: ds⟩ = none := rfl
    rw [if_pos ⟨hne, hdig⟩] at hm
    simp only [getListMarker, markerFromClasses, Node.classes, List.foldl_cons,
      List.foldl_nil, classScanStep, hli, hm]
  · intro n h1 h2
    interval_cases n <;> decide
  · intro n hn
    simp [circledNumber, circled_lookup_gt hn]

/-- C5 witness: two digits `21` parse to the out-of-range value and the
theorem applies at a concrete digit list. -/
theorem maru_class_circled_marker_witness :
    getListMarker (.elem "ol" [] [] []) (.elem "li" [] [⟨['m', 'a', 'r', 'u', '2', '1']⟩] []) 3
      = circledNumber 21 :=
  (maru_class_circled_marker (.elem "ol" [] [] []) [] [] 3 ['2', '1']
    (by decide) (by decide)).1

/-- C6: for an ordered list whose `type` attribute is `a` or `A` and an
item with no class-derived marker, an effective ordinal in 1..26 gets the
letter marker `chr(start letter + ordinal - 1)` plus `.`, uppercase
exactly for the attribute `A`; ordinals outside 1..26 fall through to the
default ordered marker `<ordinal>.`. -/
theorem type_a_letter_marker (a : List (String × String)) (k : List String)
    (cs : List Node) (li : Node) (num : Int) (tattr : String)
    (hty : a.lookup "type" = some tattr) (ht : tattr = "a" ∨ tattr = "A")
    (hcls : markerFromClasses li = none) :
    (1 ≤ num → num ≤ 26 →
      getListMarker (.elem "ol" a k cs) li num
        = ⟨[Char.ofNat ((if tattr = "A" then 'A' else 'a').toNat + (num - 1).toNat)]⟩ ++ ".")
    ∧ ((num < 1 ∨ 26 < num) →
      getListMarker (.elem "ol" a k cs) li num = Int.repr num ++ ".") := by
  have hstrip : pyStrip ((Node.getAttr (.elem "ol" a k cs) "type").getD "") = tattr := by
    rcases ht with h | h <;> subst h <;> simp only [Node.getAttr, hty, Option.getD] <;> decide
  constructor
  · intro h1 h2
    have hmt : markerFromType (.elem "ol" a k cs) num tattr
        = some (⟨[Char.ofNat ((if tattr = "A" then 'A' else 'a').toNat + (num - 1).toNat)]⟩
            ++ ".") := by
      have hlow : pyLower tattr = "a" := by rcases ht with h | h <;> subst h <;> decide
      simp only [markerFromType, Node.name?]
      rw [if_neg (by rcases ht with h | h <;> subst h <;> simp), if_pos ⟨hlow, h1, h2⟩]
    simp only [getListMarker, hcls, hstrip, hmt]
  · intro hout
    have hmt : markerFromType (.elem "ol" a k cs) num tattr = none := by
      simp only [markerFromType, Node.name?]
      rw [if_neg (by rcases ht with h | h <;> subst h <;> simp),
        if_neg (by rintro ⟨-, hh1, hh2⟩; rcases hout with h | h <;> omega)]
    simp only [getListMarker, hcls, hstrip, hmt, defaultMarker, Node.name?]
    simp

/-- C6 witness: `type="A"` with ordinal 2 gives the uppercase marker. -/
theorem type_a_letter_marker_witness :
    getListMarker (.elem "ol" [("type", "A")] [] []) (.elem "li" [] [] []) 2 = "B." :=
  ((type_a_letter_marker [("type", "A")] [] [] (.elem "li" [] [] []) 2 "A"
    (by decide) (by decide) (by decide)).1 (by decide) (by decide)).trans (by decide)

/-!
## Validation against the repository's test suite

Each theorem below replays one expectation of `tests/test_fe_crawler.py`
on the embedding (the tests assert substring containment; here the full
output is pinned).  `val_kana_classes` documents the one test the source
fails, the subject of the kana claim.
-/

theorem val_ordered_list_default_markers :
    processList (.elem "ol" [] [] [.elem "li" [] [] [.text "Step 1"],
      .elem "li" [] [] [.text "Step 2"]]) 0 = "1. Step 1\n\n2. Step 2" := by decide

theorem val_numbered_classes :
    processList (.elem "ul" [] [] [.elem "li" [] ["li1"] [.text "Case one"],
      .elem "li" [] ["li2"] [.text "Case two"]]) 0 = "(1) Case one\n\n(2) Case two" := by decide

theorem val_alpha_type_markers :
    processList (.elem "ol" [("type", "a")] [] [.elem "li" [] [] [.text "Alpha"],
      .elem "li" [] [] [.text "Beta"]]) 0 = "a. Alpha\n\nb. Beta" := by decide

theorem val_alpha_type_with_value :
    processList (.elem "ol" [("type", "a")] []
      [.elem "li" [("value", "5")] [] [.text "Fifth"],
       .elem "li" [] [] [.text "Sixth"]]) 0 = "e. Fifth\n\nf. Sixth" := by decide

theorem val_maru_numbering :
    processList (.elem "ol" [] [] [.elem "li" [] ["maru1"] [.text "Alpha"],
      .elem "li" [] ["maru2"] [.text "Beta"]]) 0 = "① Alpha\n\n② Beta" := by decide

theorem val_kana_classes :
    processList (.elem "ul" [] [] [.elem "li" [] ["lia"] [.text "Option A"],
      .elem "li" [] ["lii"] [.text "Option B"]]) 0 = "- Option A\n\n- Option B" := by decide

theorem val_nested_list_indent :
    processList (.elem "ul" [] []
      [.text "\n        ",
       .elem "li" [] [] [.text "Item 1\n            ",
         .elem "ol" [] [] [.text "\n                ",
           .elem "li" [] [] [.text "Nested 1"], .text "\n                ",
           .elem "li" [] [] [.text "Nested 2"], .text "\n            "],
         .text "\n        "],
       .text "\n        ",
       .elem "li" [] [] [.text "Item 2"],
       .text "\n    "]) 0
    = "- Item 1\n\n　1. Nested 1\n\n　2. Nested 2\n\n- Item 2" := by decide

theorem val_span_bb_in_list :
    processElement (fun _ s => s) (fun _ => none) ""
      (.elem "ul" [] [] [.elem "li" [] []
        [.text "Text with ", .elem "span" [] ["bb"] [.text "a"], .text " blank"]])
      = "- Text with <u>&emsp;a&emsp;</u> blank\n\n" := by decide

theorem val_image_resolves_against_base :
    processElement (fun b s => b ++ s) (fun u => some ("./assets/" ++ u)) "x/"
      (.elem "img" [("src", "i.png")] [] [])
      = imgBlock "./assets/x/i.png" := by decide

theorem val_newline_before_list :
    processElement (fun _ s => s) (fun _ => none) ""
      (.elem "div" [] [] [.text "Text line",
        .elem "ul" [] [] [.elem "li" [] [] [.text "List Item"]]])
      = "Text line\n\n- List Item\n\n\n\n" := by decide

theorem val_newline_after_list :
    processElement (fun _ s => s) (fun _ => none) ""
      (.elem "div" [] [] [.elem "ul" [] [] [.elem "li" [] [] [.text "Item"]],
        .text "Following text"])
      = "\n\n- Item\n\nFollowing text\n\n" := by decide

theorem val_preserves_u_tags :
    processElement (fun _ s => s) (fun _ => none) ""
      (.elem "div" [] [] [.text "Text with ",
        .elem "u" [] [] [.text "underlined content"], .text " here"])
      = "Text with <u>underlined content</u> here\n\n" := by decide

theorem val_round_trip_mondai :
    processElement (fun _ s => s) (fun _ => none) ""
      (.elem "div" [] ["mondai"] [.text "Text ",
        .elem "span" [] ["bb"] [.text "a"], .elem "br" [] [] [],
        .elem "ul" [] [] [.elem "li" [] [] [.text "Option"]]])
      = "Text <u>&emsp;a&emsp;</u>\n\n\n\n- Option\n\n\n\n" := by decide
